import Mathlib

/-!
Shallow embedding of the shift-roster tool (`src/main.py`) for checking its
natural-language specification.

The embedding translates the period/calendar helpers, the `ShiftModel` cell
state machine (`toggle_status`, `toggle_paid_flag`, `toggle_wish_cycle`) and
the validation routine `MainWindow.on_check` into executable Lean functions.
Cell statuses are kept as the strings the program uses (" " = unset/working,
"休" = rest, "休*" = paid rest); Python dictionaries keyed by staff name and
day token become total functions; code paths that raise in Python
(`AttributeError` on the undefined `Staff.is_leader`, `ValueError` from
`calendar.weekday` on an invalid date) are modelled with `Except`.
-/

namespace ShiftTool

/-- The list `STATUS_ORDER = [" ", "休"]` (main.py line 70): the two-state cycle used
by `toggle_status`. -/
def STATUS_ORDER : List String := [" ", "休"]

/-- Model of `class Staff` (main.py lines 165-184): name, manager flag, optional hire
date (modelled as a `(year, month, day)` triple). -/
structure Staff where
  name : String
  is_manager : Bool
  hire_date : Option (Nat × Nat × Nat) := none
deriving DecidableEq, Repr

/-- The mutable state of `ShiftModel` (main.py lines 218-238) together with
the period selection of `MainWindow`: per-cell status/wish/paid-wish layers,
leader-of-day assignments, vacation lock days, and the per-day required
work count map.  Python dicts keyed by staff name and day token are modelled
as total functions. -/
structure AppState where
  year : Nat
  month : Nat
  days : List Nat
  staffs : List Staff
  status : String → Nat → String
  wishes : String → Nat → Bool
  wish_paid : String → Nat → Bool
  leaders : Nat → String
  vac_days : String → Nat → Bool
  req_min_work : Nat → Nat

/-- Model of `ShiftModel.__init__` (main.py lines 220-238): all cells start at " "
(unset, renders as working), no wishes, no paid-wish flags, no leaders,
no vacation days, zero required-work map. -/
def ShiftModel_init (staffs : List Staff) (days : List Nat) (y m : Nat) : AppState :=
  { year := y
    month := m
    days := days
    staffs := staffs
    status := fun _ _ => " "
    wishes := fun _ _ => false
    wish_paid := fun _ _ => false
    leaders := fun _ => ""
    vac_days := fun _ _ => false
    req_min_work := fun _ => 0 }

/-- Point update of a staff-name × day-token map (a Python
`dict[name][day] = v` assignment). -/
def upd {β : Type} (f : String → Nat → β) (n : String) (d : Nat) (v : β) :
    String → Nat → β :=
  fun n2 d2 => if n2 = n ∧ d2 = d then v else f n2 d2

/-- Model of `ShiftModel.toggle_status` (main.py lines 330-352).  A wish-locked or
vacation cell is left untouched; otherwise "休*" is first normalised to
"休", the index in `STATUS_ORDER` is looked up (unknown values fall back to
index 0, mirroring the `except ValueError` guard), and the cell advances to
the next entry of the two-element cycle.  Qt only calls this with in-bounds
row/col; out-of-bounds indices (an IndexError in Python) return the state
unchanged. -/
def toggle_status (s : AppState) (row col : Nat) : AppState :=
  match s.staffs.get? row, s.days.get? col with
  | some st, some d =>
    if s.wishes st.name d || s.vac_days st.name d then s
    else
      let cur := s.status st.name d
      let base := if cur = "休*" then "休" else cur
      let idx := (STATUS_ORDER.findIdx? (fun x => x = base)).getD 0
      let nxt := STATUS_ORDER.getD ((idx + 1) % STATUS_ORDER.length) " "
      { s with status := upd s.status st.name d nxt }
  | _, _ => s

/-- Model of `ShiftModel.toggle_paid_flag` (main.py lines 354-373): no-op on
wish-locked or vacation cells; flips "休" ↔ "休*"; any other status
(including the working " ") is left untouched. -/
def toggle_paid_flag (s : AppState) (row col : Nat) : AppState :=
  match s.staffs.get? row, s.days.get? col with
  | some st, some d =>
    if s.wishes st.name d || s.vac_days st.name d then s
    else
      let cur := s.status st.name d
      if cur = "休" then { s with status := upd s.status st.name d "休*" }
      else if cur = "休*" then { s with status := upd s.status st.name d "休" }
      else s
  | _, _ => s

/-- Model of `ShiftModel.toggle_wish_cycle` (main.py lines 381-407): on a
non-vacation cell, cycles none → wish-off → paid wish-off → none; the
`DayStatus` layer is never touched. -/
def toggle_wish_cycle (s : AppState) (row col : Nat) : AppState :=
  match s.staffs.get? row, s.days.get? col with
  | some st, some d =>
    if s.vac_days st.name d then s
    else
      let is_wish := s.wishes st.name d
      let is_paid := s.wish_paid st.name d
      if !is_wish then
        { s with wishes := upd s.wishes st.name d true
                 wish_paid := upd s.wish_paid st.name d false }
      else if is_wish && !is_paid then
        { s with wish_paid := upd s.wish_paid st.name d true }
      else
        { s with wishes := upd s.wishes st.name d false
                 wish_paid := upd s.wish_paid st.name d false }
  | _, _ => s

/-! ## Calendar helpers -/

/-- Gregorian leap year, as implemented by Python's `datetime`/`calendar`
modules which `month_last_day` (main.py lines 116-121) and
`calendar.monthrange` (main.py line 1214) delegate to. -/
def isLeap (y : Nat) : Bool :=
  (y % 4 == 0 && y % 100 != 0) || y % 400 == 0

/-- Model of `month_last_day` (main.py lines 116-121) = `calendar.monthrange(y, m)[1]`
(main.py line 1214): the number of days of a Gregorian month. -/
def month_last_day (y m : Nat) : Nat :=
  if m = 2 then (if isLeap y then 29 else 28)
  else if m = 4 ∨ m = 6 ∨ m = 9 ∨ m = 11 then 30
  else 31

/-- Sakamoto weekday table (used to model Python's `calendar.weekday`). -/
def sakamotoT (m : Nat) : Nat :=
  [0, 3, 2, 5, 0, 3, 5, 1, 4, 6, 2, 4].getD (m - 1) 0

/-- Python's `calendar.weekday(y, m, d)` (0 = Monday … 6 = Sunday) on a valid
Gregorian date, via Sakamoto's congruence. -/
def pyWeekday (y m d : Nat) : Nat :=
  let y2 := if m < 3 then y - 1 else y
  (y2 + y2 / 4 - y2 / 100 + y2 / 400 + sakamotoT m + d + 6) % 7

/-- A date `datetime.date(y, m, d)` accepts without raising `ValueError`. -/
def validDate (y m d : Nat) : Prop :=
  1 ≤ y ∧ 1 ≤ m ∧ m ≤ 12 ∧ 1 ≤ d ∧ d ≤ month_last_day y m

instance (y m d : Nat) : Decidable (validDate y m d) :=
  inferInstanceAs (Decidable (1 ≤ y ∧ 1 ≤ m ∧ m ≤ 12 ∧ 1 ≤ d ∧ d ≤ month_last_day y m))

/-- Model of `calendar.weekday` as the program calls it: returns the weekday on a
valid date and raises `ValueError` (modelled with `Except.error`) otherwise. -/
def pyWeekdayE (y m d : Nat) : Except String Nat :=
  if validDate y m d then .ok (pyWeekday y m d) else .error "ValueError: day is out of range for month"

/-- Day tokens handed to `ShiftModel.resolve_day` (main.py lines 464-476):
either a plain `int` day-of-month, or a string `"mm:dd"`. -/
inductive DayToken where
  | intTok (n : Nat)
  | strTok (m d : Nat)
deriving DecidableEq, Repr

/-- Model of `ShiftModel.resolve_day` (main.py lines 464-476): an `int` token maps to
`(base_year, base_month, token)` unconditionally; a `"mm:dd"` token keeps its
own month and advances the year only across the 12→1 boundary. -/
def resolve_day (base_year base_month : Nat) : DayToken → Nat × Nat × Nat
  | .intTok n => (base_year, base_month, n)
  | .strTok m2 d2 =>
    ((if base_month = 12 ∧ m2 = 1 then base_year + 1 else base_year), m2, d2)

/-- The inline day-token → calendar-date resolution the program actually
uses for weekday display and period maps (main.py line 261 and lines
1432-1433): `(y, m)` for tokens ≥ 16, the following month (year advanced at
December) for tokens < 16. -/
def resolve_ymd (y m d : Nat) : Nat × Nat × Nat :=
  if 16 ≤ d then (y, m, d)
  else if m = 12 then (y + 1, 1, d) else (y, m + 1, d)

/-- Model of `MainWindow.current_period` (main.py lines 1209-1223): the ordered token
sequence `16 .. last_day` followed by `1 .. 15`. -/
def current_period_days (y m : Nat) : List Nat :=
  List.range' 16 (month_last_day y m - 15) ++ List.range' 1 15

/-- Successor of a Gregorian calendar date. -/
def next_date : Nat × Nat × Nat → Nat × Nat × Nat
  | (y, m, d) =>
    if d < month_last_day y m then (y, m, d + 1)
    else if m < 12 then (y, m + 1, 1) else (y + 1, 1, 1)

/-- Lexicographic strict order on `(year, month, day)` triples. -/
def dateLt (a b : Nat × Nat × Nat) : Prop :=
  a.1 < b.1 ∨ (a.1 = b.1 ∧ (a.2.1 < b.2.1 ∨ (a.2.1 = b.2.1 ∧ a.2.2 < b.2.2)))

instance (a b : Nat × Nat × Nat) : Decidable (dateLt a b) :=
  inferInstanceAs (Decidable
    (a.1 < b.1 ∨ (a.1 = b.1 ∧ (a.2.1 < b.2.1 ∨ (a.2.1 = b.2.1 ∧ a.2.2 < b.2.2)))))

/-! ## The validation routine `MainWindow.on_check` -/

/-- One weekday entry of `weekday_rules.json` (`{"min_work": …,
"min_managers": …, "leader_required": …}`). -/
structure WRule where
  min_work : Nat
  min_managers : Nat
  leader_required : Bool
deriving DecidableEq, Repr

/-- The configuration files visible to a check run: the weekday-rule table
(`rules.get(str(wd), {})`, a missing weekday giving the empty dict) and the
`last_tail.json` content (per staff, the previous period's trailing four
status strings).  `on_check` loads the former and never reads the latter. -/
structure Config where
  rules : Nat → Option WRule
  last_tail : String → List String

/-- Lookup `r.get("min_work", 0)` on the possibly-missing weekday rule dict. -/
def ruleMinWork : Option WRule → Nat
  | some r => r.min_work
  | none => 0

/-- Lookup `r.get("min_managers", 0)` on the possibly-missing weekday rule dict. -/
def ruleMinManagers : Option WRule → Nat
  | some r => r.min_managers
  | none => 0

/-- Lookup `r.get("leader_required", False)` on the possibly-missing weekday rule
dict. -/
def ruleLeaderRequired : Option WRule → Bool
  | some r => r.leader_required
  | none => false

/-- The body of the per-day loop of `MainWindow.on_check` (main.py lines
1347-1378).  The weekday is taken from the *base* month `(y, m, d)` for
every token, exactly as `calendar.weekday(y, m, d)` is called on line 1348;
`need_work` falls back to the weekday rule only when the model's
`req_min_work` entry is 0; a day whose rule has `leader_required` true
evaluates `any(s.is_leader and …)`, which raises `AttributeError` on the
first staff because `Staff` defines no `is_leader` attribute, and only an
empty roster lets the (then vacuous) `any` return `False` and the
"リーダーが不在" message be appended. -/
def checkDay (y m : Nat) (staffs : List Staff) (status : String → Nat → String)
    (req : Nat → Nat) (rules : Nat → Option WRule) (d : Nat) :
    Except String (List String) :=
  match pyWeekdayE y m d with
  | .error e => .error e
  | .ok wd =>
    let r := rules wd
    let need0 := req d
    let need_work := if need0 = 0 then ruleMinWork r else need0
    let min_managers := ruleMinManagers r
    let leader_req := ruleLeaderRequired r
    let work_cnt := (staffs.filter (fun s => status s.name d = " ")).length
    let mgr_work := (staffs.filter (fun s => s.is_manager && status s.name d = " ")).length
    let msgs1 : List String :=
      if need_work ≠ 0 ∧ work_cnt < need_work then
        [s!"{m}/{d}: 出勤者が不足（{work_cnt}/{need_work}）"] else []
    let msgs2 : List String :=
      if min_managers ≠ 0 ∧ mgr_work < min_managers then
        [s!"{m}/{d}: 管理職が不足（{mgr_work}/{min_managers}）"] else []
    if leader_req then
      if staffs.isEmpty then .ok (msgs1 ++ msgs2 ++ [s!"{m}/{d}: リーダーが不在"])
      else .error "AttributeError: Staff object has no attribute is_leader"
    else .ok (msgs1 ++ msgs2)

/-- The `for d in days` loop of `MainWindow.on_check`, accumulating the
violation messages in day order and aborting at the first raised
exception. -/
def on_check_go (y m : Nat) (staffs : List Staff) (status : String → Nat → String)
    (req : Nat → Nat) (rules : Nat → Option WRule) :
    List Nat → Except String (List String)
  | [] => .ok []
  | d :: ds =>
    match checkDay y m staffs status req rules d with
    | .error e => .error e
    | .ok ms =>
      match on_check_go y m staffs status req rules ds with
      | .error e => .error e
      | .ok rest => .ok (ms ++ rest)

/-- Model of `MainWindow.on_check` (main.py lines 1335-1384) over a model/config
snapshot: returns the violation message list, or the exception the Python
code would raise.  Of the whole `AppState` it reads only the period, the
staff list, the status layer and `req_min_work` — in particular neither
`wishes`, `wish_paid`, `leaders` nor `Config.last_tail` influence the
result. -/
def on_check (s : AppState) (cfg : Config) : Except String (List String) :=
  on_check_go s.year s.month s.staffs s.status s.req_min_work cfg.rules s.days

/-- Version of `on_check` with the post-run model state made explicit: the method only
reads the model (it appends to a local `msgs` list and shows a message box),
so the state it leaves behind is the state it was given. -/
def on_check_full (s : AppState) (cfg : Config) :
    AppState × Except String (List String) :=
  (s, on_check s cfg)

/-! ## Concrete scenarios (period 2025/10: tokens 16..31 = October,
tokens 1..15 = November) -/

/-- A single non-manager staff member. -/
def staffA : Staff := ⟨"A", false, none⟩

/-- Freshly initialised model for the 2025/10 period with the single
non-manager "A": every cell working, no wishes. -/
def envBase : AppState :=
  ShiftModel_init [staffA] (current_period_days 2025 10) 2025 10

/-- Configuration with the weekday-rule file missing/empty and an empty
previous-period tail file. -/
def cfgNone : Config := ⟨fun _ => none, fun _ => []⟩

/-- Staff "A" takes an unpaid three-day rest run on the current-period days 16,
17, 18 (2025-10-16 .. 2025-10-18); everything else is working. -/
def env2 : AppState :=
  { envBase with
    status := fun n d =>
      if n = "A" ∧ (d = 16 ∨ d = 17 ∨ d = 18) then "休" else " " }

/-- Every weekday rule demands a leader (`leader_required = true`,
no staffing minima). -/
def cfg3 : Config := ⟨fun _ => some ⟨0, 0, true⟩, fun _ => []⟩

/-- Manager "A" and non-manager "B", all cells working, and day token 16's
leader assigned to the non-manager "B". -/
def env4 : AppState :=
  { ShiftModel_init [⟨"A", true, none⟩, ⟨"B", false, none⟩]
      (current_period_days 2025 10) 2025 10 with
    leaders := fun d => if d = 16 then "B" else "" }

/-- A single manager "M", working every day of the 2025/10 period. -/
def env5 : AppState :=
  ShiftModel_init [⟨"M", true, none⟩] (current_period_days 2025 10) 2025 10

/-- Weekday rule: Saturdays (weekday 5) require 2 managers; every other
weekday has no rule entry. -/
def cfg5 : Config :=
  ⟨fun wd => if wd = 5 then some ⟨0, 2, false⟩ else none, fun _ => []⟩

/-- The wish-layer invariant implicit in `ShiftModel`: a cell carries the
paid-wish flag only while it is a wish-off cell. -/
def WishInv (s : AppState) : Prop :=
  ∀ n d, s.wish_paid n d = true → s.wishes n d = true

/-- The 2025/10 model with staff "A" resting (unpaid) on every cell — a
concrete state for exercising the paid-flag flip. -/
def env9 : AppState := { envBase with status := fun _ _ => "休" }

/-! ## Theorems -/

/-- C1 (counterexample): `ShiftModel.resolve_day` maps the *integer* day
token 1 with base month (2025, 12) to (2025, 12, 1), not to the claimed
(2026, 1, 1): for int tokens the code returns
`(base_year, base_month, token)` unconditionally, with no 16-threshold. -/
theorem C1_counterexample :
    resolve_day 2025 12 (DayToken.intTok 1) = (2025, 12, 1) ∧
    resolve_day 2025 12 (DayToken.intTok 1) ≠ (2026, 1, 1) :=
  ⟨rfl, by decide⟩

/-- C1 (amended): the ≥16 / <16 threshold resolution holds for the inline
day-token resolution the program actually uses (main.py lines 261 and
1432-1433): a token ≥ 16 resolves to `(baseYear, baseMonth, token)`, a
token < 16 resolves into the following month with the year advanced when
the base month is December; in particular token 1 under base month
(Y, 12) resolves to (Y+1, 1, 1). -/
theorem C1_resolve_threshold (y m d : Nat) :
    (16 ≤ d → resolve_ymd y m d = (y, m, d)) ∧
    (d < 16 → resolve_ymd y m d =
      ((if m = 12 then y + 1 else y), (if m = 12 then 1 else m + 1), d)) ∧
    resolve_ymd y 12 1 = (y + 1, 1, 1) := by
  refine ⟨fun h => ?_, fun h => ?_, ?_⟩
  · simp [resolve_ymd, h]
  · have h16 : ¬ 16 ≤ d := by omega
    by_cases hm : m = 12 <;> simp [resolve_ymd, h16, hm]
  · simp [resolve_ymd]

/-- C1 witness: the amended theorem evaluated at tokens 20 (base 2025/10)
and 1 (base 2025/12). -/
theorem C1_witness :
    (16 ≤ 20 ∧ resolve_ymd 2025 10 20 = (2025, 10, 20)) ∧
    (1 < 16 ∧ resolve_ymd 2025 12 1 = (2026, 1, 1)) :=
  ⟨⟨by decide, (C1_resolve_threshold 2025 10 20).1 (by decide)⟩,
   ⟨by decide, by simpa using (C1_resolve_threshold 2025 12 1).2.1 (by decide)⟩⟩

/-- C2 (code divergence): staff "A" has the unpaid rest run 16..18 inside
the current period (statuses 休,休,休, none flagged 休*), yet `on_check`
returns no violation at all — the cross-period consecutive-rest paid-leave
rule announced in the module docstring (main.py line 25) is absent from
`on_check` (main.py lines 1335-1384), which also never reads the
`last_tail` data (the result is the same for every tail content). -/
theorem C2_eval :
    ∀ tail : String → List String,
      on_check env2 ⟨fun _ => none, tail⟩ = .ok [] :=
  fun _ => rfl

/-- C3 (counterexample): with one staff member and every weekday rule
demanding a leader, `on_check` raises `AttributeError` — line 1377
evaluates `s.is_leader`, an attribute `Staff` never defines — so the check
does not "raise no exception for every PolicyConfig". -/
theorem C3_counterexample :
    on_check envBase cfg3 =
      .error "AttributeError: Staff object has no attribute is_leader" :=
  rfl

/-- C4 (code divergence): day token 16 has its leader assigned to the
non-manager "B", yet `on_check` emits no leader-ineligibility violation —
it never reads `ShiftModel.leaders` at all (the result is unchanged under
any reassignment of the leader map). -/
theorem C4_eval :
    on_check env4 cfgNone = .ok [] ∧
    ∀ l : Nat → String,
      on_check { env4 with leaders := l } cfgNone = on_check env4 cfgNone :=
  ⟨rfl, fun _ => rfl⟩

/-- C5 (code divergence): token 1 of the 2025/10 period resolves to
2025-11-01, a Saturday (weekday 5), whose rule demands 2 managers while
only 1 works — the claim requires a `1/2` manager-coverage violation for
that date.  `on_check` instead computes the weekday from the *base* month
(`calendar.weekday(2025, 10, 1)` = Wednesday) and emits nothing for token
1; the manager violations it does emit sit at tokens 18, 25, 4, 11, the
base-month Saturdays (4 and 11 resolve to November weekdays that are not
Saturdays). -/
theorem C5_eval :
    pyWeekday 2025 11 1 = 5 ∧ pyWeekday 2025 10 1 = 2 ∧
    on_check env5 cfg5 = .ok
      ["10/18: 管理職が不足（1/2）", "10/25: 管理職が不足（1/2）",
       "10/4: 管理職が不足（1/2）", "10/11: 管理職が不足（1/2）"] ∧
    "10/1: 管理職が不足（1/2）" ∉
      ["10/18: 管理職が不足（1/2）", "10/25: 管理職が不足（1/2）",
       "10/4: 管理職が不足（1/2）", "10/11: 管理職が不足（1/2）"] :=
  ⟨rfl, rfl, rfl, by decide⟩

/-- C6 (code divergence): staff "A" has zero wish-off cells and works all
31 consecutive days of the 2025/10 period, yet `on_check` reports nothing — the
no-wish-then-overwork rule announced in the module docstring (main.py
line 29) is absent from `on_check`, which never reads the wish layer (the
result is unchanged under any wish assignment). -/
theorem C6_eval :
    on_check envBase cfgNone = .ok [] ∧
    ∀ w : String → Nat → Bool,
      on_check { envBase with wishes := w } cfgNone = on_check envBase cfgNone :=
  ⟨rfl, fun _ => rfl⟩

/-- On a valid date, a day whose weekday rule does not require a leader —
or an empty roster, for which the `any(…)` generator never touches
`s.is_leader` — lets `checkDay` complete without an exception. -/
lemma checkDay_isOk (y m : Nat) (staffs : List Staff)
    (status : String → Nat → String) (req : Nat → Nat)
    (rules : Nat → Option WRule) (d : Nat) (hv : validDate y m d)
    (h : (∀ wd, ruleLeaderRequired (rules wd) = false) ∨ staffs = []) :
    ∃ ms, checkDay y m staffs status req rules d = .ok ms := by
  unfold checkDay pyWeekdayE
  rw [if_pos hv]
  rcases h with h | h
  · simp only [h]
    exact ⟨_, rfl⟩
  · subst h
    cases hlr : ruleLeaderRequired (rules (pyWeekday y m d)) <;> simp [hlr]

/-- Day-loop version of `checkDay_isOk`. -/
lemma on_check_go_isOk (y m : Nat) (staffs : List Staff)
    (status : String → Nat → String) (req : Nat → Nat)
    (rules : Nat → Option WRule) (ds : List Nat)
    (hv : ∀ d ∈ ds, validDate y m d)
    (h : (∀ wd, ruleLeaderRequired (rules wd) = false) ∨ staffs = []) :
    ∃ msgs, on_check_go y m staffs status req rules ds = .ok msgs := by
  induction ds with
  | nil => exact ⟨[], rfl⟩
  | cons d ds ih =>
    obtain ⟨ms, hms⟩ :=
      checkDay_isOk y m staffs status req rules d (hv d (List.mem_cons_self d ds)) h
    obtain ⟨rest, hrest⟩ := ih fun x hx => hv x (List.mem_cons_of_mem d hx)
    exact ⟨ms ++ rest, by simp [on_check_go, hms, hrest]⟩

/-- With an empty roster, entirely missing weekday rules and a zero
required-work map, a valid day contributes no message. -/
lemma checkDay_empty (y m : Nat) (status : String → Nat → String)
    (req : Nat → Nat) (rules : Nat → Option WRule) (d : Nat)
    (hv : validDate y m d) (hr : ∀ wd, rules wd = none) (hq : req d = 0) :
    checkDay y m [] status req rules d = .ok [] := by
  unfold checkDay pyWeekdayE
  rw [if_pos hv]
  simp [hr, hq, ruleMinWork, ruleMinManagers, ruleLeaderRequired]

/-- Day-loop version of `checkDay_empty`. -/
lemma on_check_go_empty (y m : Nat) (status : String → Nat → String)
    (req : Nat → Nat) (rules : Nat → Option WRule) (ds : List Nat)
    (hv : ∀ d ∈ ds, validDate y m d)
    (hr : ∀ wd, rules wd = none) (hq : ∀ d, req d = 0) :
    on_check_go y m [] status req rules ds = .ok [] := by
  induction ds with
  | nil => rfl
  | cons d ds ih =>
    have h1 := checkDay_empty y m status req rules d
      (hv d (List.mem_cons_self d ds)) hr (hq d)
    have h2 := ih fun x hx => hv x (List.mem_cons_of_mem d hx)
    simp [on_check_go, h1, h2]

/-- C3 (amended): `on_check` is total only away from the `leader_required`
path — it raises `AttributeError` (undefined `Staff.is_leader`) when an
applicable weekday rule requires a leader and the roster is non-empty.
Otherwise, for valid period dates it completes: with an empty period it
returns the empty violation list, with an empty roster it completes
without exception, and with an empty roster *and* missing weekday-rule /
special-quota configuration (rules defaulting to
`min_work = min_managers = 0, leader_required = false`, required-work map
all zero) it returns the empty violation list. -/
theorem C3_totality :
    (∀ (s : AppState) (cfg : Config), s.days = [] → on_check s cfg = .ok []) ∧
    (∀ (s : AppState) (cfg : Config),
      (∀ d ∈ s.days, validDate s.year s.month d) →
      ((∀ wd, ruleLeaderRequired (cfg.rules wd) = false) ∨ s.staffs = []) →
      ∃ msgs, on_check s cfg = .ok msgs) ∧
    (∀ (s : AppState) (cfg : Config),
      s.staffs = [] →
      (∀ d ∈ s.days, validDate s.year s.month d) →
      (∀ wd, cfg.rules wd = none) →
      (∀ d, s.req_min_work d = 0) →
      on_check s cfg = .ok []) := by
  refine ⟨fun s cfg h => ?_, fun s cfg hv h => ?_, fun s cfg hs hv hr hq => ?_⟩
  · unfold on_check
    rw [h]
    rfl
  · exact on_check_go_isOk s.year s.month s.staffs s.status s.req_min_work
      cfg.rules s.days hv h
  · unfold on_check
    rw [hs]
    exact on_check_go_empty s.year s.month s.status s.req_min_work
      cfg.rules s.days hv hr hq

/-- C3 witness: the amended theorem at concrete inputs — an empty period
returns `.ok []`; the 2025/10 period with the single staff "A" and a
missing weekday-rule file completes without exception. -/
theorem C3_witness :
    ((ShiftModel_init [] [] 2025 10).days = [] ∧
      on_check (ShiftModel_init [] [] 2025 10) cfgNone = .ok []) ∧
    ((∀ d ∈ envBase.days, validDate envBase.year envBase.month d) ∧
      ∃ msgs, on_check envBase cfgNone = .ok msgs) :=
  ⟨⟨rfl, C3_totality.1 (ShiftModel_init [] [] 2025 10) cfgNone rfl⟩,
   ⟨by decide, C3_totality.2.1 envBase cfgNone (by decide)
      (Or.inl fun wd => rfl)⟩⟩

/-- Every Gregorian month has at least 28 days. -/
lemma month_last_day_ge (y m : Nat) : 28 ≤ month_last_day y m := by
  unfold month_last_day
  split_ifs <;> omega

/-- A token ≥ 16 resolves into the base month. -/
lemma resolve_ymd_ge (y m d : Nat) (h : 16 ≤ d) : resolve_ymd y m d = (y, m, d) := by
  simp [resolve_ymd, h]

/-- A token < 16 resolves into the next month when the base month is not
December. -/
lemma resolve_ymd_lt_ne (y m d : Nat) (h : ¬ 16 ≤ d) (hm : m ≠ 12) :
    resolve_ymd y m d = (y, m + 1, d) := by
  simp [resolve_ymd, h, hm]

/-- A token < 16 resolves into January of the next year when the base month
is December. -/
lemma resolve_ymd_lt_12 (y d : Nat) (h : ¬ 16 ≤ d) :
    resolve_ymd y 12 d = (y + 1, 1, d) := by
  simp [resolve_ymd, h]

/-- Mid-month date successor. -/
lemma next_date_mid (y m d : Nat) (h : d < month_last_day y m) :
    next_date (y, m, d) = (y, m, d + 1) := by
  simp [next_date, h]

/-- A map over `List.range'` is a chain as soon as the function relates
every pair of adjacent indices. -/
lemma chain'_map_range' {α : Type} (R : α → α → Prop) (f : Nat → α) :
    ∀ (n s : Nat), (∀ k, s ≤ k → k + 2 ≤ s + n → R (f k) (f (k + 1))) →
      List.Chain' R ((List.range' s n).map f)
  | 0, s, _ => by simp
  | n + 1, s, h => by
    rw [List.range'_succ, List.map_cons, List.chain'_cons']
    refine ⟨?_, chain'_map_range' R f n (s + 1) fun k hk1 hk2 => h k (by omega) (by omega)⟩
    intro z hz
    cases n with
    | zero => simp at hz
    | succ k =>
      rw [List.range'_succ, List.map_cons, List.head?_cons] at hz
      simp only [Option.mem_def, Option.some.injEq] at hz
      subst hz
      exact h s le_rfl (by omega)

/-- Last element of a mapped `List.range'`. -/
lemma getLast?_map_range' {α : Type} (f : Nat → α) :
    ∀ (n s : Nat), 0 < n →
      ((List.range' s n).map f).getLast? = some (f (s + n - 1))
  | 0, _, h => absurd h (by omega)
  | 1, s, _ => by simp [List.range'_succ]
  | n + 2, s, _ => by
    rw [List.range'_succ, List.map_cons, List.range'_succ, List.map_cons,
      List.getLast?_cons_cons, ← List.map_cons, ← List.range'_succ,
      getLast?_map_range' f (n + 1) (s + 1) (by omega)]
    have harg : s + 1 + (n + 1) - 1 = s + (n + 2) - 1 := by omega
    rw [harg]

/-- C7 (counterexample): feeding the 2025/12 period's tokens through
`ShiftModel.resolve_day` does *not* give strictly increasing calendar
dates — integer tokens always resolve into the base month, so after
token 31 ↦ (2025, 12, 31) comes token 1 ↦ (2025, 12, 1). -/
theorem C7_counterexample :
    ¬ List.Chain' dateLt ((current_period_days 2025 12).map
        (fun d => resolve_day 2025 12 (DayToken.intTok d))) := by
  intro h
  rw [List.chain'_iff_get] at h
  have h2 := h 15 (by decide)
  revert h2
  decide

/-- C7 (amended): `current_period` builds exactly the token sequence
`16 .. lastDay(baseYear, baseMonth)` followed by `1 .. 15`, of length
`(lastDay − 15) + 15`, and resolving each token in order with the inline
per-day resolution (main.py lines 261, 1432-1433) yields consecutive
calendar dates: each resolved date is the calendar successor of the
previous one, and the sequence is strictly increasing. -/
theorem C7_period_days (y m : Nat) (h1 : 1 ≤ m) (h2 : m ≤ 12) :
    current_period_days y m =
      List.range' 16 (month_last_day y m - 15) ++ List.range' 1 15 ∧
    (current_period_days y m).length = (month_last_day y m - 15) + 15 ∧
    List.Chain' (fun a b => b = next_date a ∧ dateLt a b)
      ((current_period_days y m).map (resolve_ymd y m)) := by
  have hL : 28 ≤ month_last_day y m := month_last_day_ge y m
  refine ⟨rfl, by simp [current_period_days], ?_⟩
  unfold current_period_days
  rw [List.map_append, List.chain'_append]
  refine ⟨?_, ?_, ?_⟩
  · apply chain'_map_range'
    intro k hk1 hk2
    have hkL : k < month_last_day y m := by omega
    rw [resolve_ymd_ge y m k (by omega), resolve_ymd_ge y m (k + 1) (by omega)]
    exact ⟨(next_date_mid y m k hkL).symm,
      Or.inr ⟨rfl, Or.inr ⟨rfl, Nat.lt_succ_self k⟩⟩⟩
  · apply chain'_map_range'
    intro k hk1 hk2
    have hn : ¬ 16 ≤ k := by omega
    have hn' : ¬ 16 ≤ k + 1 := by omega
    by_cases hm : m = 12
    · subst hm
      rw [resolve_ymd_lt_12 y k hn, resolve_ymd_lt_12 y (k + 1) hn']
      have hk31 : k < month_last_day (y + 1) 1 := by
        have := month_last_day_ge (y + 1) 1
        omega
      exact ⟨(next_date_mid (y + 1) 1 k hk31).symm,
        Or.inr ⟨rfl, Or.inr ⟨rfl, Nat.lt_succ_self k⟩⟩⟩
    · rw [resolve_ymd_lt_ne y m k hn hm, resolve_ymd_lt_ne y m (k + 1) hn' hm]
      have hk2' : k < month_last_day y (m + 1) := by
        have := month_last_day_ge y (m + 1)
        omega
      exact ⟨(next_date_mid y (m + 1) k hk2').symm,
        Or.inr ⟨rfl, Or.inr ⟨rfl, Nat.lt_succ_self k⟩⟩⟩
  · intro x hx z hz
    rw [getLast?_map_range' (resolve_ymd y m) (month_last_day y m - 15) 16
      (by omega)] at hx
    simp only [Option.mem_def, Option.some.injEq] at hx
    have harg : 16 + (month_last_day y m - 15) - 1 = month_last_day y m := by omega
    rw [harg] at hx
    subst hx
    rw [List.range'_succ, List.map_cons, List.head?_cons] at hz
    simp only [Option.mem_def, Option.some.injEq] at hz
    subst hz
    rw [resolve_ymd_ge y m (month_last_day y m) (by omega)]
    have hnotlt : ¬ month_last_day y m < month_last_day y m := by omega
    by_cases hm : m = 12
    · subst hm
      rw [resolve_ymd_lt_12 y 1 (by omega)]
      constructor
      · simp [next_date, hnotlt]
      · exact Or.inl (Nat.lt_succ_self y)
    · rw [resolve_ymd_lt_ne y m 1 (by omega) hm]
      have hmlt : m < 12 := by omega
      constructor
      · simp [next_date, hnotlt, hmlt]
      · exact Or.inr ⟨rfl, Or.inl (Nat.lt_succ_self m)⟩

/-- C7 witness: the amended theorem at the December boundary period
2025/12. -/
theorem C7_witness :
    (1 : Nat) ≤ 12 ∧ (12 : Nat) ≤ 12 ∧
    List.Chain' (fun a b => b = next_date a ∧ dateLt a b)
      ((current_period_days 2025 12).map (resolve_ymd 2025 12)) :=
  ⟨by decide, by decide, (C7_period_days 2025 12 (by decide) (by decide)).2.2⟩

/-- C8: rule evaluation is read-only and repeatable: the model state after
`on_check` is exactly the state before (status, wishes, wish_paid, leaders
and all other fields), and a second run on that state with the same
configuration snapshot returns the identical result. -/
theorem C8_check_readonly (s : AppState) (cfg : Config) :
    (on_check_full s cfg).1 = s ∧
    (on_check_full ((on_check_full s cfg).1) cfg).2 = (on_check_full s cfg).2 :=
  ⟨rfl, rfl⟩

/-- Lemma: `toggle_status` only ever rewrites the status layer: the staff list,
the period, the wish layers and the vacation locks are untouched in every
branch. -/
lemma toggle_status_layers (s : AppState) (row col : Nat) :
    (toggle_status s row col).staffs = s.staffs ∧
    (toggle_status s row col).days = s.days ∧
    (toggle_status s row col).wishes = s.wishes ∧
    (toggle_status s row col).wish_paid = s.wish_paid ∧
    (toggle_status s row col).vac_days = s.vac_days := by
  unfold toggle_status
  cases s.staffs.get? row <;> cases s.days.get? col
  case some.some st d => dsimp only; split_ifs <;> exact ⟨rfl, rfl, rfl, rfl, rfl⟩
  all_goals exact ⟨rfl, rfl, rfl, rfl, rfl⟩

/-- Lemma: `toggle_paid_flag` only ever rewrites the status layer. -/
lemma toggle_paid_flag_layers (s : AppState) (row col : Nat) :
    (toggle_paid_flag s row col).staffs = s.staffs ∧
    (toggle_paid_flag s row col).days = s.days ∧
    (toggle_paid_flag s row col).wishes = s.wishes ∧
    (toggle_paid_flag s row col).wish_paid = s.wish_paid ∧
    (toggle_paid_flag s row col).vac_days = s.vac_days := by
  unfold toggle_paid_flag
  cases s.staffs.get? row <;> cases s.days.get? col
  case some.some st d => dsimp only; split_ifs <;> exact ⟨rfl, rfl, rfl, rfl, rfl⟩
  all_goals exact ⟨rfl, rfl, rfl, rfl, rfl⟩

/-- Lemma: `toggle_wish_cycle` never touches the `DayStatus` layer. -/
lemma toggle_wish_cycle_status_eq (s : AppState) (row col : Nat) :
    (toggle_wish_cycle s row col).status = s.status := by
  unfold toggle_wish_cycle
  cases s.staffs.get? row <;> cases s.days.get? col
  case some.some st d => dsimp only; split_ifs <;> rfl
  all_goals rfl

/-- A wish-locked or vacation cell makes `toggle_status` a no-op. -/
lemma toggle_status_locked (s : AppState) (row col : Nat) (st : Staff) (d : Nat)
    (hrow : s.staffs.get? row = some st) (hcol : s.days.get? col = some d)
    (hlock : (s.wishes st.name d || s.vac_days st.name d) = true) :
    toggle_status s row col = s := by
  unfold toggle_status
  rw [hrow, hcol]
  dsimp only
  rw [if_pos hlock]

/-- On an unlocked cell, `toggle_status` rewrites exactly the clicked cell
with the successor of its current value in the normalised two-state cycle. -/
lemma toggle_status_cell (s : AppState) (row col : Nat) (st : Staff) (d : Nat)
    (hrow : s.staffs.get? row = some st) (hcol : s.days.get? col = some d)
    (hw : s.wishes st.name d = false) (hv : s.vac_days st.name d = false)
    (cur nxt : String) (hcur : s.status st.name d = cur)
    (hnxt : STATUS_ORDER.getD
        (((STATUS_ORDER.findIdx?
            (fun x => x = (if cur = "休*" then "休" else cur))).getD 0 + 1)
          % STATUS_ORDER.length) " " = nxt) :
    toggle_status s row col = { s with status := upd s.status st.name d nxt } := by
  unfold toggle_status
  rw [hrow, hcol]
  dsimp only
  rw [if_neg (by simp [hw, hv]), hcur, hnxt]

/-- C9: toggle algebra.  From a working cell, two `toggle_status` clicks
return the cell to working (whether or not the cell is wish/vacation
locked); `toggle_paid_flag` on a working cell returns the model unchanged;
and on an unlocked resting cell `toggle_paid_flag` flips 休 ↔ 休*. -/
theorem C9_toggle_algebra (s : AppState) (row col : Nat) (st : Staff) (d : Nat)
    (hrow : s.staffs.get? row = some st) (hcol : s.days.get? col = some d) :
    (s.status st.name d = " " →
      (toggle_status (toggle_status s row col) row col).status st.name d = " ") ∧
    (s.status st.name d = " " → toggle_paid_flag s row col = s) ∧
    (s.wishes st.name d = false → s.vac_days st.name d = false →
      (s.status st.name d = "休" →
        (toggle_paid_flag s row col).status st.name d = "休*") ∧
      (s.status st.name d = "休*" →
        (toggle_paid_flag s row col).status st.name d = "休")) := by
  refine ⟨?_, ?_, ?_⟩
  · intro hW
    by_cases hlock : (s.wishes st.name d || s.vac_days st.name d) = true
    · rw [toggle_status_locked s row col st d hrow hcol hlock,
        toggle_status_locked s row col st d hrow hcol hlock]
      exact hW
    · simp only [Bool.or_eq_true, not_or, Bool.not_eq_true] at hlock
      obtain ⟨hw, hv⟩ := hlock
      have h1 := toggle_status_cell s row col st d hrow hcol hw hv " " "休"
        hW (by decide)
      rw [h1]
      have hcur1 : ({ s with status := upd s.status st.name d "休" }
          : AppState).status st.name d = "休" := by simp [upd]
      have h2 := toggle_status_cell { s with status := upd s.status st.name d "休" }
        row col st d hrow hcol hw hv "休" " " hcur1 (by decide)
      rw [h2]
      simp [upd]
  · intro hW
    unfold toggle_paid_flag
    rw [hrow, hcol]
    dsimp only
    by_cases hlock : (s.wishes st.name d || s.vac_days st.name d) = true
    · rw [if_pos hlock]
    · rw [if_neg hlock]
      simp [hW]
  · intro hw hv
    constructor <;> intro hcur <;>
      · unfold toggle_paid_flag
        rw [hrow, hcol]
        dsimp only
        rw [if_neg (by simp [hw, hv])]
        simp [hcur, upd]

/-- C9 witness: the toggle algebra on concrete cells — double-toggling the
working cell (0, 0) of the fresh 2025/10 model lands back on working, the
paid-flag click there is the identity, and on the all-resting model the
paid-flag click yields 休*. -/
theorem C9_witness :
    (envBase.status staffA.name 16 = " " ∧
      (toggle_status (toggle_status envBase 0 0) 0 0).status staffA.name 16 = " " ∧
      toggle_paid_flag envBase 0 0 = envBase) ∧
    (env9.wishes staffA.name 16 = false ∧ env9.vac_days staffA.name 16 = false ∧
      env9.status staffA.name 16 = "休" ∧
      (toggle_paid_flag env9 0 0).status staffA.name 16 = "休*") :=
  ⟨⟨rfl,
    (C9_toggle_algebra envBase 0 0 staffA 16 rfl rfl).1 rfl,
    (C9_toggle_algebra envBase 0 0 staffA 16 rfl rfl).2.1 rfl⟩,
   ⟨rfl, rfl, rfl,
    ((C9_toggle_algebra env9 0 0 staffA 16 rfl rfl).2.2 rfl rfl).1 rfl⟩⟩

/-- C10: the implicit wish-layer invariant — `wish_paid` is set only where
`wishes` is set — holds for a freshly initialised model and is preserved by
`toggle_status`, `toggle_paid_flag` and `toggle_wish_cycle`; moreover the
wish cycle never modifies the status layer. -/
theorem C10_wish_invariant :
    (∀ (staffs : List Staff) (days : List Nat) (y m : Nat),
      WishInv (ShiftModel_init staffs days y m)) ∧
    (∀ (s : AppState) (row col : Nat), WishInv s →
      WishInv (toggle_status s row col) ∧
      WishInv (toggle_paid_flag s row col) ∧
      WishInv (toggle_wish_cycle s row col) ∧
      (toggle_wish_cycle s row col).status = s.status) := by
  constructor
  · intro staffs days y m n d h
    simp [ShiftModel_init] at h
  · intro s row col hInv
    refine ⟨?_, ?_, ?_, toggle_wish_cycle_status_eq s row col⟩
    · intro n d h
      rw [(toggle_status_layers s row col).2.2.2.1] at h
      rw [(toggle_status_layers s row col).2.2.1]
      exact hInv n d h
    · intro n d h
      rw [(toggle_paid_flag_layers s row col).2.2.2.1] at h
      rw [(toggle_paid_flag_layers s row col).2.2.1]
      exact hInv n d h
    · intro n d
      unfold toggle_wish_cycle
      cases s.staffs.get? row <;> cases s.days.get? col
      case some.some st dd =>
        dsimp only
        split_ifs with hvac hnw hwp
        · exact hInv n d
        · intro h
          by_cases hc : n = st.name ∧ d = dd
          · simp [upd, hc]
          · simp only [upd, if_neg hc] at h ⊢
            exact hInv n d h
        · intro h
          by_cases hc : n = st.name ∧ d = dd
          · obtain ⟨hn, hd⟩ := hc
            subst hn; subst hd
            simpa using hnw
          · simp only [upd, if_neg hc] at h
            exact hInv n d h
        · intro h
          by_cases hc : n = st.name ∧ d = dd
          · simp only [upd, if_pos hc] at h
            simp at h
          · simp only [upd, if_neg hc] at h ⊢
            exact hInv n d h
      all_goals exact hInv n d

/-- C10 witness: the invariant holds on the concrete initial 2025/10 model
and is carried through one wish-cycle click on cell (0, 0). -/
theorem C10_witness :
    WishInv envBase ∧
    WishInv (toggle_wish_cycle envBase 0 0) ∧
    (toggle_wish_cycle envBase 0 0).status = envBase.status :=
  have h : WishInv envBase := fun n d hp => by
    simp [envBase, ShiftModel_init] at hp
  ⟨h, (C10_wish_invariant.2 envBase 0 0 h).2.2.1,
    (C10_wish_invariant.2 envBase 0 0 h).2.2.2⟩

end ShiftTool
